import Mathlib

/-!
Verification development for the insider-trading detection engine of the
polymarket-bot repository (src/backend/detectors.py, src/backend/models.py,
src/backend/backtester.py, src/backend/config.py).

Embedding conventions:
* Python floats are modelled as exact rationals (the scoring arithmetic only
  adds and compares small decimal constants).
* Python datetimes are modelled as rational epoch seconds.  A raw record field
  that may hold a number, a string, or a datetime object is modelled by the
  RawField sum type below, so that Python value equality and the
  isinstance dispatch in the source can be mirrored exactly.
* Fallible code returns Option: a result of none models a Python exception
  propagating out of the call (for example ValueError from
  datetime.fromisoformat on a malformed string, or TypeError from float()).
* Batch functions that sort raw trades by their timestamp field are embedded
  on the domain where every timestamp is a datetime object (RawField.dt);
  batches holding string or missing timestamps map to none.  The string
  timestamp branch of the source is embedded separately in the model-builder
  section, which is where the claims exercise it.
-/

namespace PMBot

/-- Python float literal parser: models float(s) on plain decimal strings
(optional sign, digits, optional fractional part).  Strings outside this
grammar (for which float() raises ValueError) map to none. -/
def pyFloatChars : List Char → Option ℚ
  | [] => none
  | cs =>
    let (sign, cs) :=
      match cs with
      | '-' :: rest => ((-1 : ℚ), rest)
      | '+' :: rest => ((1 : ℚ), rest)
      | rest => ((1 : ℚ), rest)
    let intPart := cs.takeWhile (·.isDigit)
    let rest := cs.dropWhile (·.isDigit)
    let intVal : ℚ := intPart.foldl (fun a c => a * 10 + ((c.toNat - 48 : ℕ) : ℚ)) 0
    match rest with
    | [] => if intPart = [] then none else some (sign * intVal)
    | '.' :: fracs =>
      let fracPart := fracs.takeWhile (·.isDigit)
      let rest2 := fracs.dropWhile (·.isDigit)
      if rest2 = [] ∧ ¬(intPart = [] ∧ fracPart = []) then
        let fracVal : ℚ :=
          fracPart.foldl (fun a c => a * 10 + ((c.toNat - 48 : ℕ) : ℚ)) 0
        some (sign * (intVal + fracVal / ((10 : ℚ) ^ fracPart.length)))
      else none
    | _ => none

/-- Python float(s) on a string value. -/
def pyFloatParse (s : String) : Option ℚ := pyFloatChars s.data

/-- Models s.replace("Z", "+00:00"): every Z character is replaced. -/
def replaceZChars : List Char → List Char
  | [] => []
  | c :: rest =>
    if c = 'Z' then '+' :: '0' :: '0' :: ':' :: '0' :: '0' :: replaceZChars rest
    else c :: replaceZChars rest

/-- Models timestamp.replace("Z", "+00:00") from the source. -/
def pyReplaceZ (s : String) : String := ⟨replaceZChars s.data⟩

def parseDigit : Char → Option ℕ :=
  fun c => if c.isDigit then some (c.toNat - 48) else none

def parse2 : List Char → Option (ℕ × List Char)
  | a :: b :: rest => do
    let da ← parseDigit a
    let db ← parseDigit b
    pure (da * 10 + db, rest)
  | _ => none

def parse4 : List Char → Option (ℕ × List Char)
  | a :: b :: c :: d :: rest => do
    let da ← parseDigit a
    let db ← parseDigit b
    let dc ← parseDigit c
    let dd ← parseDigit d
    pure (((da * 10 + db) * 10 + dc) * 10 + dd, rest)
  | _ => none

def expectChar (c : Char) : List Char → Option (List Char)
  | x :: rest => if x = c then some rest else none
  | [] => none

/-- Gregorian leap year test. -/
def isLeap (y : ℕ) : Bool := y % 4 = 0 ∧ (y % 100 ≠ 0 ∨ y % 400 = 0)

/-- Days in a Gregorian month. -/
def daysInMonth (y m : ℕ) : ℕ :=
  if m = 2 then (if isLeap y then 29 else 28)
  else if m = 4 ∨ m = 6 ∨ m = 9 ∨ m = 11 then 30
  else 31

/-- Days from 1970-01-01 to the given civil date (standard civil-calendar
conversion). -/
def daysFromCivil (y m d : ℤ) : ℤ :=
  let y2 : ℤ := if m ≤ 2 then y - 1 else y
  let era : ℤ := Int.fdiv y2 400
  let yoe : ℤ := y2 - era * 400
  let mp : ℤ := if m ≤ 2 then m + 9 else m - 3
  let doy : ℤ := Int.fdiv (153 * mp + 2) 5 + d - 1
  let doe : ℤ := yoe * 365 + Int.fdiv yoe 4 - Int.fdiv yoe 100 + doy
  era * 146097 + doe - 719468

/-- Parses the time-of-day and optional UTC offset tail of an ISO-8601
string; returns seconds-within-day minus the offset. -/
def parseTimeTail (cs : List Char) : Option ℚ := do
  let (h, cs) ← parse2 cs
  let cs ← expectChar ':' cs
  let (mi, cs) ← parse2 cs
  let cs ← expectChar ':' cs
  let (s, cs) ← parse2 cs
  if h ≤ 23 ∧ mi ≤ 59 ∧ s ≤ 59 then
    let base : ℚ := (h : ℚ) * 3600 + (mi : ℚ) * 60 + (s : ℚ)
    match cs with
    | [] => some base
    | sgn :: rest => do
      let osign : ℚ ← (if sgn = '+' then some 1 else if sgn = '-' then some (-1) else none)
      let (oh, rest) ← parse2 rest
      let rest ← expectChar ':' rest
      let (om, rest) ← parse2 rest
      if rest = [] ∧ oh ≤ 23 ∧ om ≤ 59 then
        some (base - osign * ((oh : ℚ) * 3600 + (om : ℚ) * 60))
      else none
  else none

/-- Models datetime.fromisoformat(s), producing the instant as rational epoch
seconds.  Covers the YYYY-MM-DD[ sep HH:MM:SS[+HH:MM]] core of the ISO-8601
grammar; strings outside it (for which fromisoformat raises ValueError) map
to none. -/
def isoParse (s : String) : Option ℚ := do
  let cs := s.data
  let (y, cs) ← parse4 cs
  let cs ← expectChar '-' cs
  let (m, cs) ← parse2 cs
  let cs ← expectChar '-' cs
  let (d, cs) ← parse2 cs
  if 1 ≤ m ∧ m ≤ 12 ∧ 1 ≤ d ∧ d ≤ daysInMonth y m then
    let dateSecs : ℚ := ((daysFromCivil (y : ℤ) (m : ℤ) (d : ℤ)) : ℚ) * 86400
    match cs with
    | [] => some dateSecs
    | sep :: rest =>
      if sep = 'T' ∨ sep = ' ' then do
        let tod ← parseTimeTail rest
        some (dateSecs + tod)
      else none
  else none

/-- A raw value held in a Python dict: a string, a plain number, or a
datetime object (as epoch seconds). -/
inductive RawField where
  | str : String → RawField
  | num : ℚ → RawField
  | dt : ℚ → RawField
deriving DecidableEq, Repr

/-- Models float(v) applied to a raw field value: float of a datetime raises
TypeError, float of a malformed string raises ValueError. -/
def pyFloatOf : RawField → Option ℚ
  | .num q => some q
  | .str s => pyFloatParse s
  | .dt _ => none

/-- A raw trade record as consumed by the detector (trade_data dict).  Fields
that the source reads with .get are Options; absent keys are none. -/
structure RawTrade where
  id : Option String := none
  market : Option String := none
  maker : Option String := none
  side : Option String := none
  outcome : Option String := none
  size : Option RawField := none
  price : Option RawField := none
  timestamp : Option RawField := none
deriving DecidableEq, Repr

/-- A raw market record (market_data dict). -/
structure RawMarket where
  slug : Option String := none
  question : Option String := none
  volume24hr : Option ℚ := none
  liquidity : Option ℚ := none
  endDate : Option RawField := none
deriving DecidableEq, Repr

/-- A raw wallet-profile record (wallet_profile dict), with fields already of
their canonical types (the pydantic coercion layer is not modelled). -/
structure RawWallet where
  address : Option String := none
  display_name : Option String := none
  total_trades : Option ℤ := none
  unique_markets : Option ℤ := none
  total_volume_usd : Option ℚ := none
  win_rate : Option ℚ := none
  first_seen : Option ℚ := none
  last_active : Option ℚ := none
deriving DecidableEq, Repr

/-- models.WalletProfile. -/
structure WalletProfile where
  address : String
  display_name : Option String := none
  total_trades : ℤ := 0
  unique_markets : ℤ := 0
  total_volume_usd : ℚ := 0
  win_rate : Option ℚ := none
  first_seen : Option ℚ := none
  last_active : Option ℚ := none
  is_fresh_wallet : Bool := false
  is_whale : Bool := false
  has_unusual_win_rate : Bool := false
deriving DecidableEq, Repr

/-- models.Trade. -/
structure Trade where
  id : String
  market_id : String
  market_slug : String
  market_question : String
  trader_address : String
  side : String
  outcome : String
  shares : ℚ
  price : ℚ
  notional_usd : ℚ
  timestamp : ℚ
  market_volume_24h : Option ℚ := none
  market_liquidity : Option ℚ := none
deriving DecidableEq, Repr

/-- models.AlertSeverity. -/
inductive AlertSeverity where
  | low
  | medium
  | high
  | critical
deriving DecidableEq, Repr

/-- models.SuspiciousTrade.  The human-readable flag strings of the source
carry formatted numbers; here each flag is abbreviated to a fixed label per
signal (the claims depend only on which signals fired and in which order). -/
structure SuspiciousTrade where
  trade : Trade
  wallet : WalletProfile
  severity : AlertSeverity
  suspicion_score : ℚ
  flags : List String
  volume_zscore : Option ℚ := none
  potential_profit : Option ℚ := none
deriving DecidableEq, Repr

/-- One entry of the detailed signal breakdown returned by
analyze_trade_detailed (the diagnostic detail and threshold strings are
omitted; claims read only the score). -/
structure Signal where
  signal : String
  score : ℚ
deriving DecidableEq, Repr

/-- models.WalletCluster.  cluster_id renders the window-start instant via
its numeric string form in place of datetime.isoformat. -/
structure WalletCluster where
  cluster_id : String
  wallets : List String
  correlation_score : ℚ
  shared_markets : List String
  total_volume : ℚ
  first_coordinated_trade : ℚ
deriving DecidableEq, Repr

/-- WalletCluster.is_suspicious property. -/
def isSuspicious (c : WalletCluster) : Bool :=
  decide (c.correlation_score > 4/5) && decide (c.wallets.length > 2)

/-- The dict returned by detect_information_cascade on success. -/
structure Cascade where
  spark_trade : RawTrade
  spark_wallet : Option String
  followers : ℕ
  follow_ratio : ℚ
  follower_volume : ℚ
  direction : Option String
deriving DecidableEq, Repr

/-- config.Settings detection thresholds (defaults). -/
structure Settings where
  min_notional_alert : ℚ := 1000
  max_unique_markets_suspicious : ℤ := 10
  volume_spike_zscore : ℚ := 5/2
  whale_threshold_usd : ℚ := 5000
  fresh_wallet_max_trades : ℤ := 5
  win_rate_suspicious_threshold : ℚ := 85/100
deriving Repr

def settings : Settings := {}

/-- InsiderDetector._build_wallet_profile. -/
def buildWalletProfile (data : RawWallet) : WalletProfile :=
  { address := data.address.getD ""
    display_name := data.display_name
    total_trades := data.total_trades.getD 0
    unique_markets := data.unique_markets.getD 0
    total_volume_usd := data.total_volume_usd.getD 0
    win_rate := data.win_rate
    first_seen := data.first_seen
    last_active := data.last_active }

/-- InsiderDetector._build_trade.  now is the value of datetime.utcnow().
A malformed string timestamp maps to none (ValueError escapes); a numeric
zero timestamp is falsy in Python and is replaced by now. -/
def buildTrade (now : ℚ) (trade_data : RawTrade) (market_data : RawMarket) :
    Option Trade := do
  let timestamp ←
    match trade_data.timestamp with
    | some (.str s) => isoParse (pyReplaceZ s)
    | some (.dt q) => some q
    | some (.num q) => if q = 0 then some now else some q
    | none => some now
  let shares ← pyFloatOf (trade_data.size.getD (.num 0))
  let price ← pyFloatOf (trade_data.price.getD (.num 0))
  pure
    { id := trade_data.id.getD ""
      market_id := trade_data.market.getD ""
      market_slug := market_data.slug.getD ""
      market_question := market_data.question.getD ""
      trader_address := trade_data.maker.getD ""
      side := trade_data.side.getD "BUY"
      outcome := trade_data.outcome.getD ""
      shares := shares
      price := price
      notional_usd := shares * price / 100
      timestamp := timestamp
      market_volume_24h := market_data.volume24hr
      market_liquidity := market_data.liquidity }

/-- Per-market volume history (self.volume_history): a dict from market id to
the list of recorded 24h-volume samples, modelled as an insertion-ordered
association list (Python dicts preserve insertion order). -/
def VolHist := List (String × List ℚ)
deriving DecidableEq, Repr

/-- dict.get(market_id, []). -/
def vhGet : VolHist → String → List ℚ
  | [], _ => []
  | (k, v) :: rest, m => if k = m then v else vhGet rest m

/-- dict[market_id] = l (existing key keeps its position, new key appended). -/
def vhSet : VolHist → String → List ℚ → VolHist
  | [], m, l => [(m, l)]
  | (k, v) :: rest, m, l => if k = m then (k, l) :: rest else (k, v) :: vhSet rest m l

/-- np.mean over a rational list (population mean). -/
def npMean (l : List ℚ) : ℚ := l.sum / (l.length : ℚ)

/-- np.std squared: population variance. -/
def npVar (l : List ℚ) : ℚ :=
  ((l.map (fun x => (x - npMean l) ^ 2)).sum) / (l.length : ℚ)

/-- Exact rational square root: some r with r * r = q when q is a square of a
rational, none otherwise.  Histories whose float standard deviation is
irrational are outside the embedded domain. -/
def ratSqrt (q : ℚ) : Option ℚ :=
  if q < 0 then none
  else
    let sn := Nat.sqrt q.num.toNat
    let sd := Nat.sqrt q.den
    if sn * sn = q.num.toNat ∧ sd * sd = q.den then some ((sn : ℚ) / (sd : ℚ))
    else none

/-- InsiderDetector._check_fresh_wallet.  now is datetime.utcnow(); the
timedelta .days attribute floors toward minus infinity.  Mutation of the
wallet flag is returned as an updated profile. -/
def checkFreshWallet (now : ℚ) (wallet : WalletProfile) : ℚ × WalletProfile :=
  let p :=
    if wallet.total_trades ≤ settings.fresh_wallet_max_trades then
      ((35 : ℚ), { wallet with is_fresh_wallet := true })
    else if wallet.total_trades ≤ 20 then ((15 : ℚ), wallet)
    else ((0 : ℚ), wallet)
  match p.2.first_seen with
  | none => p
  | some first_seen =>
    let account_age : ℤ := ⌊(now - first_seen) / 86400⌋
    if account_age < 7 then (p.1 + 20, p.2)
    else if account_age < 30 then (p.1 + 10, p.2)
    else p

/-- InsiderDetector._check_unusual_size. -/
def checkUnusualSize (trade : Trade) (wallet : WalletProfile) : ℚ × WalletProfile :=
  let p :=
    if trade.notional_usd ≥ settings.whale_threshold_usd then
      ((25 : ℚ), { wallet with is_whale := true })
    else ((0 : ℚ), wallet)
  if p.2.total_volume_usd > 0 ∧ p.2.total_trades > 0 then
    let avg_trade := p.2.total_volume_usd / ((p.2.total_trades : ℤ) : ℚ)
    if trade.notional_usd > avg_trade * 5 then (p.1 + 20, p.2)
    else if trade.notional_usd > avg_trade * 3 then (p.1 + 10, p.2)
    else p
  else p

/-- InsiderDetector._check_low_diversity. -/
def checkLowDiversity (wallet : WalletProfile) : ℚ :=
  if wallet.unique_markets ≤ 3 then 30
  else if wallet.unique_markets ≤ settings.max_unique_markets_suspicious then 15
  else 0

/-- The z-score banding of _check_volume_anomaly. -/
def volBand (zscore : ℚ) : ℚ :=
  if zscore ≥ settings.volume_spike_zscore * 2 then 30
  else if zscore ≥ settings.volume_spike_zscore then 15
  else 0

/-- InsiderDetector._check_volume_anomaly.  Returns (score, zscore, updated
history).  none models a history whose exact standard deviation is not
rational (outside the embedded domain).  Note the source divisor: np.std of
the history when that is positive, and 1 only when it is zero. -/
def checkVolumeAnomaly (vh : VolHist) (trade : Trade) (market_data : RawMarket) :
    Option (ℚ × ℚ × VolHist) :=
  let market_id := trade.market_id
  let current_volume := market_data.volume24hr.getD 0
  let history := vhGet vh market_id
  if history.length < 3 then
    some (0, 0, vhSet vh market_id (history ++ [current_volume]))
  else
    (ratSqrt (npVar history)).map (fun std =>
      let std_vol := if std > 0 then std else 1
      let zscore := (current_volume - npMean history) / std_vol
      let appended := history ++ [current_volume]
      let newHist := if appended.length > 30 then appended.drop 1 else appended
      (volBand zscore, zscore, vhSet vh market_id newHist))

/-- InsiderDetector._check_win_rate_anomaly. -/
def checkWinRate (wallet : WalletProfile) : ℚ × WalletProfile :=
  match wallet.win_rate with
  | none => (0, wallet)
  | some win_rate =>
    if wallet.total_trades < 10 then (0, wallet)
    else if win_rate ≥ settings.win_rate_suspicious_threshold then
      (25, { wallet with has_unusual_win_rate := true })
    else if win_rate ≥ 75/100 then (10, wallet)
    else (0, wallet)

/-- The final banding of _check_timing given the resolved end date. -/
def timingBand (trade : Trade) (end_date : ℚ) : ℚ :=
  let hours_to_end := (end_date - trade.timestamp) / 3600
  if hours_to_end < 24 ∧ trade.price < 20 then 25
  else if hours_to_end < 48 then 10
  else 0

/-- InsiderDetector._check_timing.  A missing or falsy endDate ("" or the
number 0) scores 0; a malformed string endDate maps to none (ValueError
escapes); a plain nonzero number maps to none (datetime arithmetic on it
raises TypeError). -/
def checkTiming (trade : Trade) (market_data : RawMarket) : Option ℚ :=
  match market_data.endDate with
  | none => some 0
  | some (.str s) =>
    if s = "" then some 0
    else (isoParse (pyReplaceZ s)).map (timingBand trade)
  | some (.num q) => if q = 0 then some 0 else none
  | some (.dt q) => some (timingBand trade q)

/-- InsiderDetector._check_extreme_odds. -/
def checkExtremeOdds (trade : Trade) : ℚ :=
  if trade.price ≤ 10 then 30
  else if trade.price ≤ 20 then 20
  else if trade.price ≤ 30 then 10
  else 0

/-- InsiderDetector._calculate_potential_profit. -/
def calculatePotentialProfit (trade : Trade) : ℚ :=
  if trade.price ≤ 0 then 0
  else trade.shares * (100 - trade.price) / 100

/-- The aggregation tail of analyze_trade_detailed: the below-20 early
return, the severity banding of the unclamped sum, and the clamped stored
score. -/
def aggregateDecision (trade : Trade) (wallet : WalletProfile)
    (signals : List Signal) (flags : List String) (severity_score : ℚ)
    (volume_score zscore : ℚ) (vh2 : VolHist) :
    Option SuspiciousTrade × List Signal × VolHist :=
  if severity_score < 20 then (none, signals, vh2)
  else
    let severity :=
      if severity_score ≥ 80 then AlertSeverity.critical
      else if severity_score ≥ 60 then AlertSeverity.high
      else if severity_score ≥ 40 then AlertSeverity.medium
      else AlertSeverity.low
    ( some
        { trade := trade
          wallet := wallet
          severity := severity
          suspicion_score := min severity_score 100
          flags := flags
          volume_zscore := if volume_score > 0 then some zscore else none
          potential_profit := some (calculatePotentialProfit trade) }
    , signals
    , vh2 )

/-- InsiderDetector.analyze_trade_detailed.  now stands for the (single)
instant at which datetime.utcnow() is read during the call.  Returns the
alert decision, the seven-entry signal breakdown, and the updated per-market
volume history; none models an exception escaping the call. -/
def analyzeTradeDetailed (now : ℚ) (vh : VolHist) (trade_data : RawTrade)
    (wallet_profile : RawWallet) (market_data : RawMarket) :
    Option (Option SuspiciousTrade × List Signal × VolHist) := do
  let wallet0 := buildWalletProfile wallet_profile
  let trade ← buildTrade now trade_data market_data
  let fw := checkFreshWallet now wallet0
  let fresh_wallet_score := fw.1
  let sz := checkUnusualSize trade fw.2
  let size_score := sz.1
  let diversity_score := checkLowDiversity sz.2
  let volRes ← checkVolumeAnomaly vh trade market_data
  let volume_score := volRes.1
  let zscore := volRes.2.1
  let vh2 := volRes.2.2
  let wr := checkWinRate sz.2
  let winrate_score := wr.1
  let wallet3 := wr.2
  let timing_score ← checkTiming trade market_data
  let odds_score := checkExtremeOdds trade
  let signals : List Signal :=
    [ { signal := "Fresh Wallet", score := fresh_wallet_score }
    , { signal := "Position Size", score := size_score }
    , { signal := "Market Diversity", score := diversity_score }
    , { signal := "Volume Spike", score := volume_score }
    , { signal := "Win Rate", score := winrate_score }
    , { signal := "Timing", score := timing_score }
    , { signal := "Extreme Odds", score := odds_score } ]
  let flags : List String :=
    (if fresh_wallet_score > 0 then ["Low activity wallet"] else []) ++
    (if size_score > 0 then ["Large position"] else []) ++
    (if diversity_score > 0 then ["Low market diversity"] else []) ++
    (if volume_score > 0 then ["Volume spike"] else []) ++
    (if winrate_score > 0 then ["Suspicious win rate"] else []) ++
    (if timing_score > 0 then ["Close to resolution"] else []) ++
    (if odds_score > 0 then ["Extreme odds"] else [])
  let severity_score : ℚ :=
    (if fresh_wallet_score > 0 then fresh_wallet_score else 0) +
    (if size_score > 0 then size_score else 0) +
    (if diversity_score > 0 then diversity_score else 0) +
    (if volume_score > 0 then volume_score else 0) +
    (if winrate_score > 0 then winrate_score else 0) +
    (if timing_score > 0 then timing_score else 0) +
    (if odds_score > 0 then odds_score else 0)
  pure (aggregateDecision trade wallet3 signals flags severity_score
    volume_score zscore vh2)

/-- The timestamp of a raw trade in the cluster and cascade sweeps.  These
batch functions are embedded on the domain where every timestamp field holds
a datetime object; string or missing timestamps map to none (see the header
note). -/
def rtTime (t : RawTrade) : Option ℚ :=
  match t.timestamp with
  | some (.dt q) => some q
  | _ => none

/-- float(t.get("size", 0)) * float(t.get("price", 0)) / 100. -/
def rawNotional (t : RawTrade) : Option ℚ := do
  let size ← pyFloatOf (t.size.getD (.num 0))
  let price ← pyFloatOf (t.price.getD (.num 0))
  pure (size * price / 100)

/-- Stable insertion of a keyed trade: an element goes after all elements of
equal key already present, so folding from the left is Python-sort stable. -/
def insertKeyed (p : ℚ × RawTrade) : List (ℚ × RawTrade) → List (ℚ × RawTrade)
  | [] => [p]
  | q :: rest => if p.1 < q.1 then p :: q :: rest else q :: insertKeyed p rest

def insertionSortKeyed (l : List (ℚ × RawTrade)) : List (ℚ × RawTrade) :=
  l.foldl (fun acc p => insertKeyed p acc) []

/-- sorted(trades, key=lambda x: x.get("timestamp", "")) on the datetime
domain. -/
def sortByTime (trades : List RawTrade) : Option (List RawTrade) := do
  let keyed ← trades.mapM (fun t => do
    let time ← rtTime t
    pure (time, t))
  pure ((insertionSortKeyed keyed).map (fun p => p.2))

def maxQ : List ℚ → ℚ
  | [] => 0
  | x :: xs => xs.foldl max x

def minQ : List ℚ → ℚ
  | [] => 0
  | x :: xs => xs.foldl min x

/-- InsiderDetector._calculate_correlation. -/
def calculateCorrelation (trades : List RawTrade) : Option ℚ :=
  if trades.length < 2 then some 0
  else do
    let sides := trades.map (fun t => t.side)
    let same_side_ratio : ℚ :=
      ((max (sides.countP (fun s => s == some "BUY"))
            (sides.countP (fun s => s == some "SELL")) : ℕ) : ℚ) /
        ((sides.length : ℕ) : ℚ)
    let times ← trades.mapM rtTime
    let time_spread : ℚ := if times = [] then 999 else (maxQ times - minQ times) / 60
    let time_score : ℚ := 1 - min (time_spread / 60) 1
    pure ((same_side_ratio + time_score) / 2)

/-- Evaluation of a closed cluster inside detect_wallet_clusters: emits at
most one WalletCluster.  The wallets list is the set of truthy maker
addresses; Python iterates a set in unspecified order, so the model keeps
first-occurrence order (downstream behaviour reads only size and
membership). -/
def evalCluster (market_id : String) (cluster_start : ℚ)
    (current_cluster : List RawTrade) : Option (List WalletCluster) :=
  if current_cluster.length ≥ 3 then
    let wallets :=
      ((current_cluster.filterMap (fun t => t.maker)).filter (fun w => w ≠ "")).dedup
    if wallets.length ≥ 3 then do
      let total_vol ← (current_cluster.mapM rawNotional).map List.sum
      let corr ← calculateCorrelation current_cluster
      pure
        [ { cluster_id := market_id ++ "_" ++ toString cluster_start
            wallets := wallets
            correlation_score := corr
            shared_markets := [market_id]
            total_volume := total_vol
            first_coordinated_trade := cluster_start } ]
    else pure []
  else pure []

/-- The left-to-right sweep over one market inside detect_wallet_clusters.
The second argument carries the open cluster (window start, members); the
trailing open cluster at the end of the list is dropped without evaluation,
exactly as in the source. -/
def sweep (w : ℚ) (market_id : String) :
    List RawTrade → Option (ℚ × List RawTrade) → List WalletCluster →
    Option (List WalletCluster)
  | [], _, acc => some acc
  | t :: rest, cur, acc => do
    let trade_time ← rtTime t
    match cur with
    | none => sweep w market_id rest (some (trade_time, [t])) acc
    | some (cluster_start, current_cluster) =>
      if (trade_time - cluster_start) / 60 ≤ w then
        sweep w market_id rest (some (cluster_start, current_cluster ++ [t])) acc
      else do
        let emitted ← evalCluster market_id cluster_start current_cluster
        sweep w market_id rest (some (trade_time, [t])) (acc ++ emitted)

/-- First-occurrence list of truthy market ids in the batch (Python
defaultdict grouping keeps insertion order of keys). -/
def marketKeys (trades : List RawTrade) : List String :=
  trades.foldl
    (fun acc t =>
      match t.market with
      | some m => if m ≠ "" ∧ m ∉ acc then acc ++ [m] else acc
      | none => acc)
    []

/-- InsiderDetector.detect_wallet_clusters. -/
def detectWalletClusters (trades : List RawTrade) (time_window_minutes : ℚ := 30) :
    Option (List WalletCluster) := do
  let clusters ← (marketKeys trades).foldlM
    (fun acc m => do
      let sorted ← sortByTime (trades.filter (fun t => t.market = some m))
      let cs ← sweep time_window_minutes m sorted none []
      pure (acc ++ cs))
    []
  pure (clusters.filter (fun c => isSuspicious c))

/-- The spark search of detect_information_cascade: the first trade of the
given prefix whose notional meets the alert floor (the notional of trades
after the first hit is never computed, matching the loop break). -/
def findSpark : List RawTrade → Option (Option RawTrade)
  | [] => some none
  | t :: rest => do
    let notional ← rawNotional t
    if notional ≥ settings.min_notional_alert then some (some t)
    else findSpark rest

/-- The follower count and follower volume loop of
detect_information_cascade: every trade of the whole sorted list that is not
value-equal to the spark and shares its side is counted. -/
def countFollowers (spark : RawTrade) :
    List RawTrade → ℕ → ℚ → Option (ℕ × ℚ)
  | [], followers, volume => some (followers, volume)
  | t :: rest, followers, volume =>
    if t = spark then countFollowers spark rest followers volume
    else if t.side = spark.side then do
      let n ← rawNotional t
      countFollowers spark rest (followers + 1) (volume + n)
    else countFollowers spark rest followers volume

/-- InsiderDetector.detect_information_cascade. -/
def detectInformationCascade (_market_id : String) (trades : List RawTrade) :
    Option (Option Cascade) :=
  if trades.length < 5 then some none
  else do
    let sorted ← sortByTime trades
    let spark? ← findSpark (sorted.take 5)
    match spark? with
    | none => pure none
    | some spark => do
      let fw ← countFollowers spark sorted 0 0
      let followers := fw.1
      let follower_volume := fw.2
      let follow_ratio : ℚ :=
        if sorted = [] then 0 else (followers : ℚ) / ((sorted.length : ℕ) : ℚ)
      if follow_ratio ≥ 7/10 ∧ followers ≥ 5 then
        pure
          (some
            { spark_trade := spark
              spark_wallet := spark.maker
              followers := followers
              follow_ratio := follow_ratio
              follower_volume := follower_volume
              direction := spark.side })
      else pure none

/-- One ranked entry of BacktestResult.suspicious_trades (only the fields the
known-case check reads). -/
structure BTEntry where
  trader : Option String
  score : ℚ
deriving DecidableEq, Repr

/-- The insider search loop of Backtester.run_known_case: first entry whose
lowercased trader address equals the lowercased insider wallet; returns its
score and 1-indexed rank. -/
def findInsider (insider_wallet : String) :
    List BTEntry → ℕ → Option (ℚ × ℕ)
  | [], _ => none
  | e :: rest, i =>
    if (e.trader.getD "").toLower = insider_wallet then some (e.score, i + 1)
    else findInsider insider_wallet rest (i + 1)

/-- The insider-tracking fields of BacktestResult set by run_known_case. -/
structure KnownCaseOutcome where
  insider_found : Bool
  insider_score : Option ℚ
  insider_rank : Option ℕ
  passed : Bool
deriving DecidableEq, Repr

/-- The known-insider check and pass criterion of Backtester.run_known_case
(lines after the backtest itself): case-insensitive search of the ranked
entries, then passed = (found and score truthy and score >= minimum) or
(top score >= minimum). -/
def runKnownCaseCheck (entries : List BTEntry) (top_score expected_min_score : ℚ)
    (insider_wallet_field : String) : KnownCaseOutcome :=
  let insider_wallet := insider_wallet_field.toLower
  let fsr : Bool × Option ℚ × Option ℕ :=
    if insider_wallet = "" then (false, none, none)
    else
      match findInsider insider_wallet entries 0 with
      | some (s, r) => (true, some s, some r)
      | none => (false, none, none)
  { insider_found := fsr.1
    insider_score := fsr.2.1
    insider_rank := fsr.2.2
    passed :=
      (fsr.1 &&
        (match fsr.2.1 with
         | some s => decide (s ≠ 0) && decide (s ≥ expected_min_score)
         | none => false)) ||
      decide (top_score ≥ expected_min_score) }

/-- Iterated volume-anomaly calls (the only cross-call state of the engine):
each element is the (already built) trade and market record of one call. -/
def runVolCalls : VolHist → List (Trade × RawMarket) → Option VolHist
  | vh, [] => some vh
  | vh, (t, md) :: rest => do
    let r ← checkVolumeAnomaly vh t md
    runVolCalls r.2.2 rest

/-! Helper lemmas: each detector contribution is non-negative. -/

theorem ite_pos_eq_self (x : ℚ) (hx : 0 ≤ x) : (if x > 0 then x else 0) = x := by
  split_ifs with h
  · rfl
  · linarith

theorem checkFreshWallet_nonneg (now : ℚ) (w : WalletProfile) :
    0 ≤ (checkFreshWallet now w).1 := by
  unfold checkFreshWallet
  dsimp only
  split_ifs <;>
    cases w.first_seen <;>
      (dsimp only; (try split_ifs) <;> norm_num)

theorem checkUnusualSize_nonneg (t : Trade) (w : WalletProfile) :
    0 ≤ (checkUnusualSize t w).1 := by
  unfold checkUnusualSize
  dsimp only
  split_ifs <;> norm_num

theorem checkLowDiversity_nonneg (w : WalletProfile) : 0 ≤ checkLowDiversity w := by
  unfold checkLowDiversity
  split_ifs <;> norm_num

theorem checkWinRate_nonneg (w : WalletProfile) : 0 ≤ (checkWinRate w).1 := by
  unfold checkWinRate
  cases w.win_rate <;>
    (dsimp only; (try split_ifs) <;> norm_num)

theorem volBand_nonneg (z : ℚ) : 0 ≤ volBand z := by
  unfold volBand
  split_ifs <;> norm_num

theorem checkVolumeAnomaly_nonneg (vh : VolHist) (t : Trade) (md : RawMarket)
    (r : ℚ × ℚ × VolHist) (h : checkVolumeAnomaly vh t md = some r) : 0 ≤ r.1 := by
  unfold checkVolumeAnomaly at h
  dsimp only at h
  split at h
  · cases h
    norm_num
  · simp only [Option.map_eq_some'] at h
    obtain ⟨std, _, h⟩ := h
    subst h
    exact volBand_nonneg _

theorem timingBand_nonneg (t : Trade) (e : ℚ) : 0 ≤ timingBand t e := by
  unfold timingBand
  dsimp only
  split_ifs <;> norm_num

theorem checkTiming_nonneg (t : Trade) (md : RawMarket) (s : ℚ)
    (h : checkTiming t md = some s) : 0 ≤ s := by
  unfold checkTiming at h
  rcases hED : md.endDate with _ | v <;> rw [hED] at h
  · cases h
    norm_num
  · rcases v with vs | vq | vq
    · dsimp only at h
      split at h
      · cases h
        norm_num
      · simp only [Option.map_eq_some'] at h
        obtain ⟨e, _, h⟩ := h
        subst h
        exact timingBand_nonneg t e
    · dsimp only at h
      split at h
      · cases h
        norm_num
      · exact absurd h (by simp)
    · cases h
      exact timingBand_nonneg t vq

theorem checkExtremeOdds_nonneg (t : Trade) : 0 ≤ checkExtremeOdds t := by
  unfold checkExtremeOdds
  split_ifs <;> norm_num

theorem score_sum_eq (a b c d e f g : ℚ) (ha : 0 ≤ a) (hb : 0 ≤ b) (hc : 0 ≤ c)
    (hd : 0 ≤ d) (he : 0 ≤ e) (hf : 0 ≤ f) (hg : 0 ≤ g) :
    a + (b + (c + (d + (e + (f + (g + 0)))))) =
      (if a > 0 then a else 0) + (if b > 0 then b else 0) +
      (if c > 0 then c else 0) + (if d > 0 then d else 0) +
      (if e > 0 then e else 0) + (if f > 0 then f else 0) +
      (if g > 0 then g else 0) := by
  rw [ite_pos_eq_self a ha, ite_pos_eq_self b hb, ite_pos_eq_self c hc,
    ite_pos_eq_self d hd, ite_pos_eq_self e he, ite_pos_eq_self f hf,
    ite_pos_eq_self g hg]
  ring

theorem ite_pos_nonneg (x : ℚ) : 0 ≤ if x > 0 then x else 0 := by
  split_ifs with h
  · linarith
  · linarith

theorem aggregateDecision_snd (t : Trade) (w : WalletProfile) (sg : List Signal)
    (fl : List String) (s vs z : ℚ) (vh2 : VolHist) :
    (aggregateDecision t w sg fl s vs z vh2).2 = (sg, vh2) := by
  unfold aggregateDecision
  split_ifs <;> rfl

theorem aggregateDecision_spec (t : Trade) (w : WalletProfile) (sg : List Signal)
    (fl : List String) (s vs z : ℚ) (vh2 : VolHist)
    (hs : (sg.map Signal.score).sum = s) :
    (((aggregateDecision t w sg fl s vs z vh2).2.1.map Signal.score).sum < 20 →
      (aggregateDecision t w sg fl s vs z vh2).1 = none) ∧
    (¬ ((aggregateDecision t w sg fl s vs z vh2).2.1.map Signal.score).sum < 20 →
      Option.elim (aggregateDecision t w sg fl s vs z vh2).1 False (fun st =>
        st.severity =
          (if ((aggregateDecision t w sg fl s vs z vh2).2.1.map Signal.score).sum ≥ 80 then
            AlertSeverity.critical
           else if ((aggregateDecision t w sg fl s vs z vh2).2.1.map Signal.score).sum ≥ 60 then
            AlertSeverity.high
           else if ((aggregateDecision t w sg fl s vs z vh2).2.1.map Signal.score).sum ≥ 40 then
            AlertSeverity.medium
           else AlertSeverity.low) ∧
        st.suspicion_score =
          min (((aggregateDecision t w sg fl s vs z vh2).2.1.map Signal.score).sum) 100 ∧
        0 ≤ st.suspicion_score ∧ st.suspicion_score ≤ 100)) := by
  have h2 : (aggregateDecision t w sg fl s vs z vh2).2 = (sg, vh2) :=
    aggregateDecision_snd t w sg fl s vs z vh2
  rw [h2]
  dsimp only
  rw [hs]
  unfold aggregateDecision
  by_cases h1 : s < 20
  · rw [if_pos h1]
    exact ⟨fun _ => rfl, fun hc => absurd h1 hc⟩
  · rw [if_neg h1]
    dsimp only [Option.elim]
    refine ⟨fun hc => absurd hc h1, fun _ => ⟨rfl, rfl, ?_, min_le_right _ _⟩⟩
    rw [le_min_iff]
    exact ⟨by linarith [not_lt.mp h1], by norm_num⟩

/-- C1: for every trade analyzed by analyze_trade_detailed, if the sum of the
seven signal contributions is below 20 the result is (None, signals);
otherwise a SuspiciousTrade is returned whose severity bands the unclamped
sum (at least 80 CRITICAL, at least 60 HIGH, at least 40 MEDIUM, else LOW)
and whose stored suspicion_score is min(sum, 100), hence always within
[0, 100], while severity uses the pre-clamp sum. -/
theorem C1_analyze_aggregation (now : ℚ) (vh : VolHist) (td : RawTrade)
    (wp : RawWallet) (md : RawMarket)
    (out : Option SuspiciousTrade × List Signal × VolHist)
    (h : analyzeTradeDetailed now vh td wp md = some out) :
    ((out.2.1.map Signal.score).sum < 20 → out.1 = none) ∧
    (¬ (out.2.1.map Signal.score).sum < 20 →
      Option.elim out.1 False (fun st =>
        st.severity =
          (if (out.2.1.map Signal.score).sum ≥ 80 then AlertSeverity.critical
           else if (out.2.1.map Signal.score).sum ≥ 60 then AlertSeverity.high
           else if (out.2.1.map Signal.score).sum ≥ 40 then AlertSeverity.medium
           else AlertSeverity.low) ∧
        st.suspicion_score = min ((out.2.1.map Signal.score).sum) 100 ∧
        0 ≤ st.suspicion_score ∧ st.suspicion_score ≤ 100)) := by
  unfold analyzeTradeDetailed at h
  simp only [bind, Option.bind_eq_some] at h
  obtain ⟨trade, hT, h⟩ := h
  obtain ⟨volRes, hV, h⟩ := h
  obtain ⟨tim, hTim, h⟩ := h
  have hfw := checkFreshWallet_nonneg now (buildWalletProfile wp)
  have hsz := checkUnusualSize_nonneg trade (checkFreshWallet now (buildWalletProfile wp)).2
  have hdv := checkLowDiversity_nonneg
    (checkUnusualSize trade (checkFreshWallet now (buildWalletProfile wp)).2).2
  have hvv := checkVolumeAnomaly_nonneg vh trade md volRes hV
  have hwr := checkWinRate_nonneg
    (checkUnusualSize trade (checkFreshWallet now (buildWalletProfile wp)).2).2
  have htm := checkTiming_nonneg trade md tim hTim
  have hod := checkExtremeOdds_nonneg trade
  have hsum := score_sum_eq _ _ _ _ _ _ _ hfw hsz hdv hvv hwr htm hod
  cases h
  exact aggregateDecision_spec _ _ _ _ _ _ _ _
    (by simp only [List.map_cons, List.map_nil, List.sum_cons, List.sum_nil]; exact hsum)

def c1td : RawTrade :=
  { market := some "m1", maker := some "w1", side := some "BUY",
    size := some (.num 100), price := some (.num 10), timestamp := some (.dt 1000) }

def c1wp : RawWallet :=
  { address := some "w1", total_trades := some 100,
    unique_markets := some 50, total_volume_usd := some 5000 }

def c1md : RawMarket := { volume24hr := some 10 }

def c1out : Option SuspiciousTrade × List Signal × VolHist :=
  ( some
      { trade :=
          { id := "", market_id := "m1", market_slug := "", market_question := "",
            trader_address := "w1", side := "BUY", outcome := "", shares := 100,
            price := 10, notional_usd := 10, timestamp := 1000,
            market_volume_24h := some 10, market_liquidity := none }
        wallet :=
          { address := "w1", total_trades := 100, unique_markets := 50,
            total_volume_usd := 5000 }
        severity := AlertSeverity.low
        suspicion_score := 30
        flags := ["Extreme odds"]
        volume_zscore := none
        potential_profit := some 90 }
  , [ { signal := "Fresh Wallet", score := 0 }
    , { signal := "Position Size", score := 0 }
    , { signal := "Market Diversity", score := 0 }
    , { signal := "Volume Spike", score := 0 }
    , { signal := "Win Rate", score := 0 }
    , { signal := "Timing", score := 0 }
    , { signal := "Extreme Odds", score := 30 } ]
  , [("m1", [10])] )

/-- C1 witness: a concrete analyzed trade whose only fired signal is the
extreme-odds tier, giving sum 30, a LOW severity alert and stored score 30. -/
theorem C1_analyze_aggregation_witness :
    analyzeTradeDetailed 0 [] c1td c1wp c1md = some c1out ∧
    (((c1out.2.1.map Signal.score).sum < 20 → c1out.1 = none) ∧
     (¬ (c1out.2.1.map Signal.score).sum < 20 →
       Option.elim c1out.1 False (fun st =>
         st.severity =
           (if (c1out.2.1.map Signal.score).sum ≥ 80 then AlertSeverity.critical
            else if (c1out.2.1.map Signal.score).sum ≥ 60 then AlertSeverity.high
            else if (c1out.2.1.map Signal.score).sum ≥ 40 then AlertSeverity.medium
            else AlertSeverity.low) ∧
         st.suspicion_score = min ((c1out.2.1.map Signal.score).sum) 100 ∧
         0 ≤ st.suspicion_score ∧ st.suspicion_score ≤ 100))) :=
  ⟨by with_unfolding_all rfl,
   C1_analyze_aggregation 0 [] c1td c1wp c1md c1out (by with_unfolding_all rfl)⟩

theorem checkFreshWallet_snd_unique_markets (now : ℚ) (w : WalletProfile) :
    ((checkFreshWallet now w).2).unique_markets = w.unique_markets := by
  unfold checkFreshWallet
  dsimp only
  split_ifs <;> cases w.first_seen <;> dsimp only <;> (try split_ifs) <;> (try rfl)

theorem checkUnusualSize_snd_unique_markets (t : Trade) (w : WalletProfile) :
    ((checkUnusualSize t w).2).unique_markets = w.unique_markets := by
  unfold checkUnusualSize
  dsimp only
  split_ifs <;> rfl

theorem aggregateDecision_high (t : Trade) (w : WalletProfile) (sg : List Signal)
    (fl : List String) (s vs z : ℚ) (vh2 : VolHist) (hs : 65 ≤ s) :
    Option.elim (aggregateDecision t w sg fl s vs z vh2).1 False (fun st =>
      65 ≤ st.suspicion_score ∧
      (st.severity = AlertSeverity.high ∨ st.severity = AlertSeverity.critical)) := by
  unfold aggregateDecision
  rw [if_neg (by linarith)]
  dsimp only [Option.elim]
  refine ⟨?_, ?_⟩
  · rw [le_min_iff]
    exact ⟨hs, by norm_num⟩
  · by_cases h80 : s ≥ 80
    · rw [if_pos h80]
      right
      rfl
    · rw [if_neg h80, if_pos (by linarith : s ≥ 60)]
      left
      rfl

/-- A completely empty raw wallet-profile mapping. -/
def emptyWalletData : RawWallet := {}

/-- C10: analyzing any well-formed trade with a completely empty
wallet-profile mapping always yields a SuspiciousTrade with suspicion score
at least 65 and severity HIGH or CRITICAL: the fresh-wallet tier (+35, since
total_trades defaults to 0) and the strongest low-diversity tier (+30, since
unique_markets defaults to 0) both necessarily fire, and every other signal
is non-negative. -/
theorem C10_empty_profile_always_alerts (now : ℚ) (vh : VolHist) (td : RawTrade)
    (md : RawMarket) (out : Option SuspiciousTrade × List Signal × VolHist)
    (h : analyzeTradeDetailed now vh td emptyWalletData md = some out) :
    Option.elim out.1 False (fun st =>
      65 ≤ st.suspicion_score ∧
      (st.severity = AlertSeverity.high ∨ st.severity = AlertSeverity.critical)) := by
  unfold analyzeTradeDetailed at h
  simp only [bind, Option.bind_eq_some] at h
  obtain ⟨trade, hT, h⟩ := h
  obtain ⟨volRes, hV, h⟩ := h
  obtain ⟨tim, hTim, h⟩ := h
  have hA : (checkFreshWallet now (buildWalletProfile emptyWalletData)).1 = 35 := rfl
  have hUM : ((checkUnusualSize trade
      (checkFreshWallet now (buildWalletProfile emptyWalletData)).2).2).unique_markets = 0 := by
    rw [checkUnusualSize_snd_unique_markets, checkFreshWallet_snd_unique_markets]
    rfl
  have hC : checkLowDiversity ((checkUnusualSize trade
      (checkFreshWallet now (buildWalletProfile emptyWalletData)).2).2) = 30 := by
    unfold checkLowDiversity
    rw [hUM]
    norm_num
  cases h
  apply aggregateDecision_high
  rw [hA, hC]
  have h1 := ite_pos_nonneg (checkUnusualSize trade
    (checkFreshWallet now (buildWalletProfile emptyWalletData)).2).1
  have h2 := ite_pos_nonneg volRes.1
  have h3 := ite_pos_nonneg (checkWinRate (checkUnusualSize trade
    (checkFreshWallet now (buildWalletProfile emptyWalletData)).2).2).1
  have h4 := ite_pos_nonneg tim
  have h5 := ite_pos_nonneg (checkExtremeOdds trade)
  have e35 : (if (35:ℚ) > 0 then (35:ℚ) else 0) = 35 := by norm_num
  have e30 : (if (30:ℚ) > 0 then (30:ℚ) else 0) = 30 := by norm_num
  rw [e35, e30]
  linarith

def c10td : RawTrade :=
  { market := some "m2", maker := some "w2", side := some "BUY",
    size := some (.num 50), price := some (.num 25), timestamp := some (.dt 2000) }

def c10md : RawMarket := {}

/-- C10 witness: a concrete trade analyzed against the empty wallet profile
lands at sum 75 = 35 + 30 + 10, severity HIGH, stored score 75. -/
theorem C10_empty_profile_always_alerts_witness :
    (analyzeTradeDetailed 0 [] c10td emptyWalletData c10md).map
        (fun out => out.1.map (fun st => (st.suspicion_score, st.severity))) =
      some (some ((75 : ℚ), AlertSeverity.high)) ∧
    Option.elim
      ((analyzeTradeDetailed 0 [] c10td emptyWalletData c10md).getD
        (none, [], [])).1 False (fun st =>
      65 ≤ st.suspicion_score ∧
      (st.severity = AlertSeverity.high ∨ st.severity = AlertSeverity.critical)) :=
  ⟨by with_unfolding_all rfl,
   C10_empty_profile_always_alerts 0 [] c10td c10md
     ((analyzeTradeDetailed 0 [] c10td emptyWalletData c10md).getD (none, [], []))
     (by with_unfolding_all rfl)⟩

theorem vhGet_vhSet_self (vh : VolHist) (m : String) (l : List ℚ) :
    vhGet (vhSet vh m l) m = l := by
  induction vh with
  | nil => simp [vhGet, vhSet]
  | cons p rest ih =>
    obtain ⟨k, v⟩ := p
    unfold vhSet
    by_cases hk : k = m
    · rw [if_pos hk]
      unfold vhGet
      rw [if_pos hk]
    · rw [if_neg hk]
      unfold vhGet
      rw [if_neg hk]
      exact ih

theorem vhGet_vhSet_ne (vh : VolHist) (k m : String) (l : List ℚ) (hk : k ≠ m) :
    vhGet (vhSet vh k l) m = vhGet vh m := by
  induction vh with
  | nil => simp [vhGet, vhSet, hk]
  | cons p rest ih =>
    obtain ⟨k', v⟩ := p
    unfold vhSet
    by_cases hk' : k' = k
    · rw [if_pos hk']
      unfold vhGet
      rw [if_neg (hk' ▸ hk), if_neg (hk' ▸ hk)]
    · rw [if_neg hk']
      unfold vhGet
      by_cases h2 : k' = m
      · rw [if_pos h2, if_pos h2]
      · rw [if_neg h2, if_neg h2]
        exact ih

/-- One volume-anomaly call keeps every market history at 30 entries or
fewer. -/
theorem checkVolumeAnomaly_cap (vh : VolHist) (t : Trade) (md : RawMarket)
    (r : ℚ × ℚ × VolHist) (h : checkVolumeAnomaly vh t md = some r)
    (hvh : ∀ m, (vhGet vh m).length ≤ 30) :
    ∀ m, (vhGet r.2.2 m).length ≤ 30 := by
  intro m
  unfold checkVolumeAnomaly at h
  dsimp only at h
  split at h
  case isTrue hlen =>
    cases h
    dsimp only
    by_cases hm : t.market_id = m
    · subst hm
      rw [vhGet_vhSet_self]
      simp only [List.length_append, List.length_cons, List.length_nil]
      omega
    · rw [vhGet_vhSet_ne _ _ _ _ hm]
      exact hvh m
  case isFalse hlen =>
    simp only [Option.map_eq_some'] at h
    obtain ⟨std, hstd, h⟩ := h
    cases h
    dsimp only
    by_cases hm : t.market_id = m
    · subst hm
      rw [vhGet_vhSet_self]
      split_ifs with hlong
      · simp only [List.length_drop, List.length_append, List.length_cons,
          List.length_nil]
        have := hvh t.market_id
        omega
      · simp only [List.length_append, List.length_cons, List.length_nil] at hlong ⊢
        omega
    · rw [vhGet_vhSet_ne _ _ _ _ hm]
      exact hvh m

theorem runVolCalls_cap (calls : List (Trade × RawMarket)) :
    ∀ vh : VolHist, (∀ m, (vhGet vh m).length ≤ 30) →
    ∀ vhF : VolHist, runVolCalls vh calls = some vhF →
    ∀ m, (vhGet vhF m).length ≤ 30 := by
  induction calls with
  | nil =>
    intro vh hvh vhF h m
    unfold runVolCalls at h
    cases h
    exact hvh m
  | cons c rest ih =>
    intro vh hvh vhF h m
    obtain ⟨t, md⟩ := c
    unfold runVolCalls at h
    simp only [bind, Option.bind_eq_some] at h
    obtain ⟨r, hr, h⟩ := h
    exact ih r.2.2 (checkVolumeAnomaly_cap vh t md r hr hvh) vhF h m

theorem checkVolumeAnomaly_fifo (vh : VolHist) (t : Trade) (md : RawMarket)
    (r : ℚ × ℚ × VolHist) (h : checkVolumeAnomaly vh t md = some r)
    (hlen : (vhGet vh t.market_id).length = 30) :
    vhGet r.2.2 t.market_id =
      (vhGet vh t.market_id).tail ++ [md.volume24hr.getD 0] := by
  unfold checkVolumeAnomaly at h
  dsimp only at h
  rw [if_neg (by omega)] at h
  simp only [Option.map_eq_some'] at h
  obtain ⟨std, hstd, h⟩ := h
  cases h
  dsimp only
  rw [vhGet_vhSet_self]
  rw [if_pos (by simp only [List.length_append, List.length_cons, List.length_nil]; omega)]
  rw [List.drop_append_of_le_length (by omega), List.drop_one]

/-- A minimal Trade record for exercising the volume-anomaly signal, which
reads only the market id from the trade. -/
def mkVolTrade (m : String) : Trade :=
  { id := "", market_id := m, market_slug := "", market_question := "",
    trader_address := "", side := "BUY", outcome := "", shares := 0, price := 0,
    notional_usd := 0, timestamp := 0 }

/-- A market record carrying only the 24h volume sample. -/
def mkVolMd (v : ℚ) : RawMarket := { volume24hr := some v }

set_option maxRecDepth 8000 in
/-- C9: over every sequence of volume-anomaly calls starting from the empty
state, each per-market history stays at 30 samples or fewer; eviction is
FIFO (at the 30-sample cap one call yields tail-of-history plus the new
sample); and after 31 calls for the same market the history length is
exactly 30. -/
theorem C9_history_cap_fifo :
    (∀ calls : List (Trade × RawMarket), ∀ vhF : VolHist,
      runVolCalls [] calls = some vhF → ∀ m, (vhGet vhF m).length ≤ 30) ∧
    (∀ (vh : VolHist) (t : Trade) (md : RawMarket) (r : ℚ × ℚ × VolHist),
      checkVolumeAnomaly vh t md = some r →
      (vhGet vh t.market_id).length = 30 →
      vhGet r.2.2 t.market_id =
        (vhGet vh t.market_id).tail ++ [md.volume24hr.getD 0]) ∧
    (runVolCalls [] (List.replicate 31 (mkVolTrade "m", mkVolMd 0))).map
        (fun vh => (vhGet vh "m").length) = some 30 := by
  refine ⟨?_, ?_, ?_⟩
  · intro calls vhF h m
    exact runVolCalls_cap calls [] (by intro m; simp [vhGet]) vhF h m
  · intro vh t md r h hlen
    exact checkVolumeAnomaly_fifo vh t md r h hlen
  · with_unfolding_all rfl

def c9vh : VolHist :=
  [("m", List.replicate 15 (0 : ℚ) ++ List.replicate 15 1)]

def c9vh2 : VolHist :=
  [("m", (List.replicate 14 (0 : ℚ) ++ List.replicate 15 1) ++ [2])]

set_option maxRecDepth 8000 in
/-- C9 witness: a single call from the empty state leaves one sample, and a
call on a full 30-sample history (15 zeros then 15 ones, an exact-std
history) evicts the oldest sample and appends the new one. -/
theorem C9_history_cap_fifo_witness :
    (runVolCalls [] [(mkVolTrade "m", mkVolMd 7)] = some [("m", [7])] ∧
      (vhGet [("m", [(7 : ℚ)])] "m").length ≤ 30) ∧
    (checkVolumeAnomaly c9vh (mkVolTrade "m") (mkVolMd 2) = some (15, 3, c9vh2) ∧
      vhGet c9vh2 "m" = (vhGet c9vh "m").tail ++ [2]) :=
  ⟨⟨by with_unfolding_all rfl,
    C9_history_cap_fifo.1 [(mkVolTrade "m", mkVolMd 7)] [("m", [7])]
      (by with_unfolding_all rfl) "m"⟩,
   ⟨by with_unfolding_all rfl,
    C9_history_cap_fifo.2.1 c9vh (mkVolTrade "m") (mkVolMd 2) (15, 3, c9vh2)
      (by with_unfolding_all rfl) (by with_unfolding_all rfl)⟩⟩

/-- C2 counterexample: starting from an empty history, the first two calls
record their samples and return (0, 0); but the third call, with only the
two samples [10, 20] recorded, still takes the warm-up branch and returns
(0, 0) while the z-score the claim predicts from those two samples is
(1000 - 15) / 5 = 197, not 0.  The third call therefore does not compute a
z-score from the first two samples. -/
theorem C2_warmup_counterexample :
    checkVolumeAnomaly [] (mkVolTrade "mv") (mkVolMd 10) =
      some (0, 0, [("mv", [10])]) ∧
    checkVolumeAnomaly [("mv", [10])] (mkVolTrade "mv") (mkVolMd 20) =
      some (0, 0, [("mv", [10, 20])]) ∧
    checkVolumeAnomaly [("mv", [10, 20])] (mkVolTrade "mv") (mkVolMd 1000) =
      some (0, 0, [("mv", [10, 20, 1000])]) ∧
    ratSqrt (npVar [(10 : ℚ), 20]) = some 5 ∧
    (1000 - npMean [(10 : ℚ), 20]) / 5 = 197 ∧
    (0 : ℚ) ≠ 197 :=
  ⟨by with_unfolding_all rfl, by with_unfolding_all rfl, by with_unfolding_all rfl,
   by with_unfolding_all rfl, by with_unfolding_all rfl, by norm_num⟩

/-- C2 amended: for a market id with an empty volume history, the first
THREE calls each contribute score 0 and return z = 0 while recording their
samples; the FOURTH call is the first to compute a real z-score, from the
first three recorded samples (whenever the exact standard deviation of those
samples is rational, which the embedding requires). -/
theorem C2_warmup_amended (vh0 : VolHist) (t1 t2 t3 t4 : Trade)
    (md1 md2 md3 md4 : RawMarket) (m : String)
    (h1 : t1.market_id = m) (h2 : t2.market_id = m) (h3 : t3.market_id = m)
    (h4 : t4.market_id = m) (h0 : vhGet vh0 m = []) :
    checkVolumeAnomaly vh0 t1 md1 =
      some (0, 0, vhSet vh0 m [md1.volume24hr.getD 0]) ∧
    checkVolumeAnomaly (vhSet vh0 m [md1.volume24hr.getD 0]) t2 md2 =
      some (0, 0, vhSet (vhSet vh0 m [md1.volume24hr.getD 0]) m
        [md1.volume24hr.getD 0, md2.volume24hr.getD 0]) ∧
    checkVolumeAnomaly (vhSet (vhSet vh0 m [md1.volume24hr.getD 0]) m
        [md1.volume24hr.getD 0, md2.volume24hr.getD 0]) t3 md3 =
      some (0, 0, vhSet (vhSet (vhSet vh0 m [md1.volume24hr.getD 0]) m
        [md1.volume24hr.getD 0, md2.volume24hr.getD 0]) m
        [md1.volume24hr.getD 0, md2.volume24hr.getD 0, md3.volume24hr.getD 0]) ∧
    (∀ std,
      ratSqrt (npVar [md1.volume24hr.getD 0, md2.volume24hr.getD 0,
        md3.volume24hr.getD 0]) = some std →
      (checkVolumeAnomaly (vhSet (vhSet (vhSet vh0 m [md1.volume24hr.getD 0]) m
          [md1.volume24hr.getD 0, md2.volume24hr.getD 0]) m
          [md1.volume24hr.getD 0, md2.volume24hr.getD 0, md3.volume24hr.getD 0])
          t4 md4).map (fun r => (r.1, r.2.1)) =
        some (volBand ((md4.volume24hr.getD 0 -
            npMean [md1.volume24hr.getD 0, md2.volume24hr.getD 0,
              md3.volume24hr.getD 0]) / (if std > 0 then std else 1)),
          (md4.volume24hr.getD 0 -
            npMean [md1.volume24hr.getD 0, md2.volume24hr.getD 0,
              md3.volume24hr.getD 0]) / (if std > 0 then std else 1))) := by
  refine ⟨?_, ?_, ?_, ?_⟩
  · unfold checkVolumeAnomaly
    rw [h1]
    dsimp only
    rw [h0]
    norm_num
  · unfold checkVolumeAnomaly
    rw [h2]
    dsimp only
    rw [vhGet_vhSet_self]
    norm_num
  · unfold checkVolumeAnomaly
    rw [h3]
    dsimp only
    rw [vhGet_vhSet_self]
    norm_num
  · intro std hstd
    unfold checkVolumeAnomaly
    rw [h4]
    dsimp only
    rw [vhGet_vhSet_self]
    rw [if_neg (by norm_num)]
    rw [hstd]
    rfl

/-- C2 witness: three warm-up calls with sample 10, then a fourth call with
volume 16 computing z = (16 - 10) / 1 = 6 (the equal samples have standard
deviation zero, replaced by 1) and scoring the top band 30. -/
theorem C2_warmup_amended_witness :
    checkVolumeAnomaly [] (mkVolTrade "mw") (mkVolMd 10) =
      some (0, 0, [("mw", [10])]) ∧
    checkVolumeAnomaly [("mw", [10])] (mkVolTrade "mw") (mkVolMd 10) =
      some (0, 0, [("mw", [10, 10])]) ∧
    checkVolumeAnomaly [("mw", [10, 10])] (mkVolTrade "mw") (mkVolMd 10) =
      some (0, 0, [("mw", [10, 10, 10])]) ∧
    (checkVolumeAnomaly [("mw", [10, 10, 10])] (mkVolTrade "mw")
        (mkVolMd 16)).map (fun r => (r.1, r.2.1)) = some (30, 6) := by
  have H := C2_warmup_amended [] (mkVolTrade "mw") (mkVolTrade "mw") (mkVolTrade "mw")
    (mkVolTrade "mw") (mkVolMd 10) (mkVolMd 10) (mkVolMd 10) (mkVolMd 16) "mw"
    rfl rfl rfl rfl rfl
  refine ⟨H.1, H.2.1, H.2.2.1, ?_⟩
  have h4 : (checkVolumeAnomaly [("mw", [10, 10, 10])] (mkVolTrade "mw")
      (mkVolMd 16)).map (fun r => (r.1, r.2.1)) =
      some (volBand ((16 - npMean [(10 : ℚ), 10, 10]) / (if (0 : ℚ) > 0 then 0 else 1)),
        (16 - npMean [(10 : ℚ), 10, 10]) / (if (0 : ℚ) > 0 then 0 else 1)) :=
    H.2.2.2 0 (by with_unfolding_all rfl)
  exact h4.trans (by with_unfolding_all rfl)

/-- C7 counterexample: for history [0, 0, 1, 1] the exact standard deviation
is 1/2, which is positive but below 1; the code divides by 1/2, giving
z = (3 - 1/2) / (1/2) = 5 (and score 30), whereas the claimed formula
(current - mean) / max(std, 1) gives 5/2.  The standard deviation is
therefore not floored at 1. -/
theorem C7_std_floor_counterexample :
    ratSqrt (npVar [(0 : ℚ), 0, 1, 1]) = some (1/2) ∧
    checkVolumeAnomaly [("mv7", [0, 0, 1, 1])] (mkVolTrade "mv7") (mkVolMd 3) =
      some (30, 5, [("mv7", [0, 0, 1, 1, 3])]) ∧
    (3 - npMean [(0 : ℚ), 0, 1, 1]) / max (1/2) 1 = 5/2 ∧
    (5 : ℚ) ≠ 5/2 :=
  ⟨by with_unfolding_all rfl, by with_unfolding_all rfl,
   by with_unfolding_all rfl, by norm_num⟩

/-- C7 amended: in the z-score computation, the divisor is the standard
deviation itself whenever it is positive (even when below 1), and 1 only
when the standard deviation is zero: z = (current - mean) / (std if std > 0
else 1). -/
theorem C7_std_divisor_amended (vh : VolHist) (t : Trade) (md : RawMarket) (std : ℚ)
    (hlen : ¬ (vhGet vh t.market_id).length < 3)
    (hstd : ratSqrt (npVar (vhGet vh t.market_id)) = some std) :
    (checkVolumeAnomaly vh t md).map (fun r => r.2.1) =
      some ((md.volume24hr.getD 0 - npMean (vhGet vh t.market_id)) /
        (if std > 0 then std else 1)) ∧
    (0 < std →
      (checkVolumeAnomaly vh t md).map (fun r => r.2.1) =
        some ((md.volume24hr.getD 0 - npMean (vhGet vh t.market_id)) / std)) := by
  constructor
  · unfold checkVolumeAnomaly
    dsimp only
    rw [if_neg hlen, hstd]
    rfl
  · intro hpos
    unfold checkVolumeAnomaly
    dsimp only
    rw [if_neg hlen, hstd]
    simp only [Option.map_some']
    rw [if_pos hpos]

/-- C7 witness: on the history [0, 0, 1, 1] with standard deviation 1/2
(positive, below 1) and current volume 3, the z-score is 5, i.e. the
divisor used is 1/2, not 1. -/
theorem C7_std_divisor_amended_witness :
    (checkVolumeAnomaly [("mw7", [0, 0, 1, 1])] (mkVolTrade "mw7")
        (mkVolMd 3)).map (fun r => r.2.1) = some 5 ∧
    (0 : ℚ) < 1/2 ∧ (1/2 : ℚ) < 1 := by
  have H := C7_std_divisor_amended [("mw7", [0, 0, 1, 1])] (mkVolTrade "mw7")
    (mkVolMd 3) (1/2) (by simp [vhGet, mkVolTrade]) (by with_unfolding_all rfl)
  have h2 := H.2 (by norm_num)
  refine ⟨?_, by norm_num, by norm_num⟩
  rw [h2]
  with_unfolding_all rfl

theorem findInsider_spec (ins : String) (l : List BTEntry) : ∀ (i : ℕ),
    (l.findIdx? (fun e => (e.trader.getD "").toLower == ins) = none →
      findInsider ins l i = none) ∧
    (∀ j, l.findIdx? (fun e => (e.trader.getD "").toLower == ins) = some j →
      ∃ e, l.get? j = some e ∧ (e.trader.getD "").toLower = ins ∧
        findInsider ins l i = some (e.score, i + j + 1)) := by
  induction l with
  | nil =>
    intro i
    exact ⟨fun _ => rfl, fun j hj => by simp at hj⟩
  | cons x xs ih =>
    intro i
    constructor
    · intro hnone
      simp only [List.findIdx?_cons] at hnone
      by_cases hx : (x.trader.getD "").toLower = ins
      · rw [if_pos (by simpa using hx)] at hnone
        cases hnone
      · rw [if_neg (by simpa using hx)] at hnone
        rw [List.findIdx?_succ] at hnone
        simp only [Option.map_eq_none'] at hnone
        unfold findInsider
        rw [if_neg hx]
        exact (ih (i + 1)).1 hnone
    · intro j hj
      simp only [List.findIdx?_cons] at hj
      by_cases hx : (x.trader.getD "").toLower = ins
      · rw [if_pos (by simpa using hx)] at hj
        cases hj
        refine ⟨x, rfl, hx, ?_⟩
        unfold findInsider
        rw [if_pos hx]
      · rw [if_neg (by simpa using hx)] at hj
        rw [List.findIdx?_succ] at hj
        simp only [Option.map_eq_some'] at hj
        obtain ⟨j', hj', rfl⟩ := hj
        obtain ⟨e, hg, he, hfi⟩ := (ih (i + 1)).2 j' hj'
        refine ⟨e, by simpa using hg, he, ?_⟩
        unfold findInsider
        rw [if_neg hx, hfi]
        congr 1
        congr 1
        omega

/-- C8: for every known-case run (whose ranked entries all carry positive
scores, as backtest_market only stores entries with score above 0, and whose
labeled insider wallet is non-empty), the case passes if and only if the
insider wallet was found among the entries by case-insensitive address
comparison with recorded score at least the expected minimum, or the top
score meets that minimum; insider_found reflects case-insensitive
membership, and when the first match sits at index j the recorded rank is
j + 1 and the recorded score is that entry's score. -/
theorem C8_known_case_pass (entries : List BTEntry) (top_score expected_min_score : ℚ)
    (w : String) (hw : w.toLower ≠ "") (hpos : ∀ e ∈ entries, 0 < e.score) :
    ((runKnownCaseCheck entries top_score expected_min_score w).passed = true ↔
      ((runKnownCaseCheck entries top_score expected_min_score w).insider_score.elim
          False (fun s => expected_min_score ≤ s) ∨
        expected_min_score ≤ top_score)) ∧
    ((runKnownCaseCheck entries top_score expected_min_score w).insider_found =
      entries.any (fun e => (e.trader.getD "").toLower == w.toLower)) ∧
    (∀ j, entries.findIdx? (fun e => (e.trader.getD "").toLower == w.toLower) = some j →
      (runKnownCaseCheck entries top_score expected_min_score w).insider_rank =
        some (j + 1) ∧
      (runKnownCaseCheck entries top_score expected_min_score w).insider_score =
        (entries.get? j).map BTEntry.score) := by
  unfold runKnownCaseCheck
  dsimp only
  rw [if_neg hw]
  rcases hIdx : entries.findIdx? (fun e => (e.trader.getD "").toLower == w.toLower)
    with _ | j
  · have hnone := (findInsider_spec w.toLower entries 0).1 hIdx
    rw [hnone]
    dsimp only
    refine ⟨?_, ?_, ?_⟩
    · simp only [Bool.false_and, Bool.false_or, decide_eq_true_eq, Option.elim,
        false_or]
    · rw [← List.findIdx?_isSome, hIdx]
      rfl
    · intro j hj
      rw [hIdx] at hj
      cases hj
  · obtain ⟨e, hg, he, hfi⟩ := (findInsider_spec w.toLower entries 0).2 j hIdx
    rw [hfi]
    dsimp only
    have hepos : e.score ≠ 0 := by
      have := hpos e (List.get?_mem hg)
      linarith
    refine ⟨?_, ?_, ?_⟩
    · simp only [Bool.true_and, Option.elim, decide_eq_true_eq, Bool.or_eq_true,
        Bool.and_eq_true]
      constructor
      · rintro (⟨h0, hs⟩ | ht)
        · exact Or.inl hs
        · exact Or.inr ht
      · rintro (hs | ht)
        · exact Or.inl ⟨hepos, hs⟩
        · exact Or.inr ht
    · rw [← List.findIdx?_isSome, hIdx]
      rfl
    · intro j' hj'
      rw [hIdx] at hj'
      cases hj'
      rw [hg]
      exact ⟨by norm_num, rfl⟩

def c8entries : List BTEntry :=
  [{ trader := some "0xAAA", score := 70 }, { trader := some "0xABCdef0000", score := 62 }]

/-- C8 witness: the spec 8 fixture -- the insider entry scores 62 at rank 2
behind a 70-score entry, the expected minimum is 60, and the case passes. -/
theorem C8_known_case_pass_witness :
    ("0xabcDEF0000".toLower ≠ "" ∧ (0:ℚ) < 70 ∧ (0:ℚ) < 62) ∧
    (runKnownCaseCheck c8entries 70 60 "0xabcDEF0000").insider_rank = some 2 ∧
    (runKnownCaseCheck c8entries 70 60 "0xabcDEF0000").insider_score = some 62 ∧
    (runKnownCaseCheck c8entries 70 60 "0xabcDEF0000").insider_found = true ∧
    (runKnownCaseCheck c8entries 70 60 "0xabcDEF0000").passed = true := by
  have hlow : "0xabcDEF0000".toLower = "0xabcdef0000" := by with_unfolding_all rfl
  have hw : "0xabcDEF0000".toLower ≠ "" := by
    rw [hlow]
    decide
  have hpos : ∀ e ∈ c8entries, 0 < e.score := by
    intro e he
    simp only [c8entries, List.mem_cons, List.not_mem_nil, or_false] at he
    rcases he with rfl | rfl <;> norm_num
  have H := C8_known_case_pass c8entries 70 60 "0xabcDEF0000" hw hpos
  have hIdx : c8entries.findIdx?
      (fun e => (e.trader.getD "").toLower == "0xabcDEF0000".toLower) = some 1 := by
    with_unfolding_all rfl
  have hr := H.2.2 1 hIdx
  refine ⟨⟨hw, by norm_num, by norm_num⟩, hr.1, ?_, ?_, ?_⟩
  · rw [hr.2]
    rfl
  · rw [H.2.1]
    with_unfolding_all rfl
  · exact H.1.mpr (Or.inr (by norm_num))

theorem mem_insertKeyed (p q : ℚ × RawTrade) (l : List (ℚ × RawTrade)) :
    q ∈ insertKeyed p l ↔ q = p ∨ q ∈ l := by
  induction l with
  | nil => simp [insertKeyed]
  | cons x xs ih =>
    unfold insertKeyed
    split_ifs with h
    · simp [or_comm, or_assoc, or_left_comm]
    · simp only [List.mem_cons, ih]
      tauto

theorem mem_insertionSortKeyed (l : List (ℚ × RawTrade)) (q : ℚ × RawTrade) :
    q ∈ insertionSortKeyed l ↔ q ∈ l := by
  have general : ∀ (l : List (ℚ × RawTrade)) (acc : List (ℚ × RawTrade)),
      q ∈ l.foldl (fun acc p => insertKeyed p acc) acc ↔ q ∈ acc ∨ q ∈ l := by
    intro l
    induction l with
    | nil => simp
    | cons x xs ih =>
      intro acc
      simp only [List.foldl_cons, ih, mem_insertKeyed, List.mem_cons]
      tauto
  unfold insertionSortKeyed
  rw [general]
  simp

theorem mapM_time_eq (τ : RawTrade → ℚ) : ∀ (l : List RawTrade),
    (∀ t ∈ l, rtTime t = some (τ t)) →
    (l.mapM (fun t => do
      let time ← rtTime t
      pure (time, t))) = some (l.map (fun t => (τ t, t))) := by
  intro l
  induction l with
  | nil => intro _; rfl
  | cons x xs ih =>
    intro h
    rw [List.mapM_cons]
    rw [h x (List.mem_cons_self x xs)]
    rw [ih (fun t ht => h t (List.mem_cons_of_mem x ht))]
    rfl

theorem sweep_all_in_window (w : ℚ) (m : String) :
    ∀ (ts : List RawTrade) (cs : ℚ) (cc : List RawTrade) (acc : List WalletCluster),
      (∀ t ∈ ts, ∃ τt, rtTime t = some τt ∧ (τt - cs) / 60 ≤ w) →
      sweep w m ts (some (cs, cc)) acc = some acc := by
  intro ts
  induction ts with
  | nil => intro cs cc acc _; rfl
  | cons t rest ih =>
    intro cs cc acc h
    obtain ⟨τt, hτ, hwin⟩ := h t (List.mem_cons_self t rest)
    unfold sweep
    rw [hτ]
    simp only [bind, Option.some_bind]
    rw [if_pos hwin]
    exact ih cs (cc ++ [t]) acc (fun t' ht' => h t' (List.mem_cons_of_mem t ht'))

theorem marketKeys_singleton (m : String) (hms : m ≠ "") :
    ∀ (ts : List RawTrade), (∀ t ∈ ts, t.market = some m) → ts ≠ [] →
    marketKeys ts = [m] := by
  have stable : ∀ (ts : List RawTrade) (acc : List String),
      (∀ t ∈ ts, t.market = some m) → m ∈ acc →
      ts.foldl (fun acc t =>
        match t.market with
        | some m' => if m' ≠ "" ∧ m' ∉ acc then acc ++ [m'] else acc
        | none => acc) acc = acc := by
    intro ts
    induction ts with
    | nil => intro acc _ _; rfl
    | cons t rest ih =>
      intro acc h hm
      rw [List.foldl_cons]
      rw [h t (List.mem_cons_self t rest)]
      dsimp only
      rw [if_neg (by simp [hm])]
      exact ih acc (fun t' ht' => h t' (List.mem_cons_of_mem t ht')) hm
  intro ts h hne
  match ts with
  | t :: rest =>
    unfold marketKeys
    rw [List.foldl_cons]
    rw [h t (List.mem_cons_self t rest)]
    dsimp only
    rw [if_pos (by simp [hms])]
    simp only [List.nil_append]
    exact stable rest [m] (fun t' ht' => h t' (List.mem_cons_of_mem t ht'))
      (List.mem_singleton_self m)

/-- C4: the trailing open cluster is never evaluated or emitted: for any
nonempty batch of trades of a single (truthy) market whose timestamps all
lie within the window of one another, the whole batch forms one in-progress
cluster that is never closed, so detect_wallet_clusters returns no cluster
at all -- regardless of how many distinct wallets it contains or how
correlated it is. -/
theorem C4_trailing_cluster_never_emitted (trades : List RawTrade) (w : ℚ) (m : String) (τ : RawTrade → ℚ)
    (hne : trades ≠ []) (hms : m ≠ "")
    (hm : ∀ t ∈ trades, t.market = some m)
    (hτ : ∀ t ∈ trades, rtTime t = some (τ t))
    (hwin : ∀ t ∈ trades, ∀ t' ∈ trades, (τ t - τ t') / 60 ≤ w) :
    detectWalletClusters trades w = some [] := by
  unfold detectWalletClusters
  rw [marketKeys_singleton m hms trades hm hne]
  have hfilter : trades.filter (fun t => t.market = some m) = trades := by
    rw [List.filter_eq_self]
    intro t ht
    simp [hm t ht]
  have hsort : sortByTime trades =
      some ((insertionSortKeyed (trades.map (fun t => (τ t, t)))).map (fun p => p.2)) := by
    unfold sortByTime
    rw [mapM_time_eq τ trades hτ]
    rfl
  have hsortedmem : ∀ s ∈ (insertionSortKeyed (trades.map (fun t => (τ t, t)))).map
      (fun p => p.2), s ∈ trades := by
    intro s hs
    simp only [List.mem_map] at hs
    obtain ⟨p, hp, rfl⟩ := hs
    rw [mem_insertionSortKeyed] at hp
    simp only [List.mem_map] at hp
    obtain ⟨t, ht, rfl⟩ := hp
    exact ht
  have hsweep : ∀ (l : List RawTrade), (∀ s ∈ l, s ∈ trades) →
      sweep w m l none [] = some [] := by
    intro l hl
    match l with
    | [] => rfl
    | s0 :: rest =>
      have hs0 : s0 ∈ trades := hl s0 (List.mem_cons_self s0 rest)
      unfold sweep
      rw [hτ s0 hs0]
      simp only [bind, Option.some_bind]
      apply sweep_all_in_window
      intro t ht
      have htm : t ∈ trades := hl t (List.mem_cons_of_mem s0 ht)
      exact ⟨τ t, hτ t htm, hwin t htm s0 hs0⟩
  simp only [List.foldlM_cons, List.foldlM_nil, bind, Option.bind_eq_some]
  rw [hfilter, hsort]
  exact ⟨[], ⟨[], ⟨_, rfl, [], hsweep _ hsortedmem, rfl⟩, rfl⟩, rfl⟩

def mkCT (mk sd : String) (sz pr tm : ℚ) : RawTrade :=
  { market := some "m1", maker := some mk, side := some sd,
    size := some (.num sz), price := some (.num pr), timestamp := some (.dt tm) }

def c3Trades : List RawTrade :=
  [mkCT "w1" "BUY" 100 50 0, mkCT "w2" "BUY" 100 50 200,
   mkCT "w3" "BUY" 100 50 400, mkCT "w4" "BUY" 100 50 600]

def c3Closer : RawTrade := mkCT "w9" "SELL" 10 50 4000

def c3Spread : List RawTrade :=
  [mkCT "w1" "BUY" 100 50 0, mkCT "w2" "BUY" 100 50 3600,
   mkCT "w3" "BUY" 100 50 7200, mkCT "w4" "BUY" 100 50 10800]

/-- C3 counterexample: 4 trades in one market from 4 distinct wallets,
all BUY, within a 10-minute span, with window 30 minutes: the sweep never
closes the only cluster, so detect_wallet_clusters returns NO cluster,
not exactly one as claimed. -/
theorem C3_cluster_counterexample :
    detectWalletClusters c3Trades 30 = some [] ∧
    ([] : List WalletCluster).length ≠ 1 :=
  ⟨by with_unfolding_all rfl, by norm_num⟩

/-- C3 amended: with the same 4 trades followed by a fifth trade outside
the 30-minute window (which closes the cluster), exactly one cluster is
returned, holding the 4 wallets with correlation_score 11/12 (at least 0.9)
and is_suspicious = true; and the same 4 trades spread over 3 hours yield
no cluster. -/
theorem C3_cluster_amended :
    (detectWalletClusters (c3Trades ++ [c3Closer]) 30).map
        (fun cs => cs.map (fun c =>
          (c.wallets.length, c.correlation_score, isSuspicious c))) =
      some [(4, 11/12, true)] ∧
    ((11 : ℚ)/12 ≥ 9/10) ∧
    detectWalletClusters c3Spread 30 = some [] :=
  ⟨by with_unfolding_all rfl, by norm_num, by with_unfolding_all rfl⟩

def c4Trades : List RawTrade :=
  [mkCT "w1" "BUY" 10 50 0, mkCT "w2" "BUY" 10 50 60,
   mkCT "w3" "BUY" 10 50 120, mkCT "w4" "BUY" 10 50 180]

def c4time : RawTrade → ℚ :=
  fun t => match t.timestamp with | some (.dt q) => q | _ => 0

/-- C4 witness: 4 same-market BUY trades from distinct wallets within 3
minutes -- a batch that would qualify as a suspicious cluster -- produce no
cluster because the trailing group is never evaluated. -/
theorem C4_trailing_cluster_never_emitted_witness :
    (c4Trades ≠ [] ∧ "m1" ≠ "") ∧
    detectWalletClusters c4Trades 30 = some [] :=
  ⟨⟨by decide, by decide⟩,
   C4_trailing_cluster_never_emitted c4Trades 30 "m1" c4time
     (by decide) (by decide)
     (of_decide_eq_true (by with_unfolding_all rfl))
     (of_decide_eq_true (by with_unfolding_all rfl))
     (of_decide_eq_true (by with_unfolding_all rfl))⟩

theorem countFollowers_spec (spark : RawTrade) : ∀ (l : List RawTrade) (f : ℕ) (v : ℚ)
    (res : ℕ × ℚ), countFollowers spark l f v = some res →
    res.1 = f + (l.filter (fun t => !(t == spark) && (t.side == spark.side))).length := by
  intro l
  induction l with
  | nil =>
    intro f v res h
    cases h
    simp
  | cons t rest ih =>
    intro f v res h
    unfold countFollowers at h
    by_cases ht : t = spark
    · rw [if_pos ht] at h
      rw [List.filter_cons_of_neg (by simp [ht])]
      exact ih f v res h
    · rw [if_neg ht] at h
      by_cases hs : t.side = spark.side
      · rw [if_pos hs] at h
        simp only [bind, Option.bind_eq_some] at h
        obtain ⟨n, hn, h⟩ := h
        rw [List.filter_cons_of_pos (by simp [ht, hs])]
        rw [ih (f + 1) (v + n) res h]
        simp only [List.length_cons]
        omega
      · rw [if_neg hs] at h
        rw [List.filter_cons_of_neg (by simp [ht, hs])]
        exact ih f v res h

theorem insertKeyed_length (p : ℚ × RawTrade) (l : List (ℚ × RawTrade)) :
    (insertKeyed p l).length = l.length + 1 := by
  induction l with
  | nil => rfl
  | cons x xs ih =>
    unfold insertKeyed
    split_ifs <;> simp [ih]

theorem insertionSortKeyed_length (l : List (ℚ × RawTrade)) :
    (insertionSortKeyed l).length = l.length := by
  have general : ∀ (l acc : List (ℚ × RawTrade)),
      (l.foldl (fun acc p => insertKeyed p acc) acc).length = acc.length + l.length := by
    intro l
    induction l with
    | nil => simp
    | cons x xs ih =>
      intro acc
      rw [List.foldl_cons, ih, insertKeyed_length]
      simp only [List.length_cons]
      omega
  unfold insertionSortKeyed
  rw [general]
  simp

theorem sortByTime_length (trades sorted : List RawTrade)
    (h : sortByTime trades = some sorted) : sorted.length = trades.length := by
  unfold sortByTime at h
  simp only [bind, Option.bind_eq_some] at h
  obtain ⟨keyed, hk, h⟩ := h
  have hkl : keyed.length = trades.length := by
    clear h
    induction trades generalizing keyed with
    | nil =>
      cases hk
      rfl
    | cons t rest ih =>
      rw [List.mapM_cons] at hk
      simp only [bind, Option.bind_eq_some] at hk
      obtain ⟨τ, hτ, hk⟩ := hk
      obtain ⟨ys, hys, hk⟩ := hk
      simp only [pure, Option.some.injEq] at hk
      subst hk
      simp [ih ys hys]
  simp only [pure, Option.some.injEq] at h
  subst h
  rw [List.length_map, insertionSortKeyed_length, hkl]

/-- The follower count of claim C6 as amended: the number of trades of the
sorted list, other than those value-equal to the spark, that share the
spark's side (before or after it). -/
def flCount (sorted : List RawTrade) (spark : RawTrade) : ℕ :=
  (sorted.filter (fun t => !(t == spark) && (t.side == spark.side))).length

/-- C6 amended: with fewer than 5 trades, or no qualifying spark among the
earliest five, detect_information_cascade reports nothing; when a spark is
found, the follower count equals the number of trades of the whole sorted
list, other than those value-equal to the spark, that share the spark's side
(trades before the spark included), and a cascade is reported if and only if
that count divided by the total number of trades is at least 0.7 and the
count is at least 5. -/
theorem C6_cascade_amended (m : String) (trades : List RawTrade) :
    (trades.length < 5 → detectInformationCascade m trades = some none) ∧
    (∀ sorted, sortByTime trades = some sorted → 5 ≤ trades.length →
      (findSpark (sorted.take 5) = some none →
        detectInformationCascade m trades = some none) ∧
      (∀ spark, findSpark (sorted.take 5) = some (some spark) →
        ∀ r, detectInformationCascade m trades = some r →
          (∀ c, r = some c →
            c.followers = flCount sorted spark ∧
            c.direction = spark.side ∧ c.spark_trade = spark ∧
            c.follow_ratio = (flCount sorted spark : ℚ) / (trades.length : ℚ)) ∧
          r.isSome = (decide ((7 : ℚ)/10 ≤
              (flCount sorted spark : ℚ) / (trades.length : ℚ)) &&
            decide (5 ≤ flCount sorted spark)))) := by
  constructor
  · intro h5
    unfold detectInformationCascade
    rw [if_pos h5]
  · intro sorted hsort h5
    have hlen := sortByTime_length trades sorted hsort
    have hne : sorted ≠ [] := by
      intro he
      rw [he] at hlen
      simp at hlen
      omega
    constructor
    · intro hnospark
      unfold detectInformationCascade
      rw [if_neg (by omega)]
      simp only [bind, Option.bind_eq_some]
      refine ⟨sorted, hsort, ?_⟩
      rw [hnospark]
      exact ⟨none, rfl, rfl⟩
    · intro spark hspark r hr
      unfold detectInformationCascade at hr
      rw [if_neg (by omega)] at hr
      simp only [bind, Option.bind_eq_some] at hr
      obtain ⟨sorted2, hsort2, hr⟩ := hr
      rw [hsort] at hsort2
      cases hsort2
      obtain ⟨sp, hsp, hr⟩ := hr
      rw [hspark] at hsp
      cases hsp
      simp only [Option.bind_eq_some] at hr
      obtain ⟨fw, hfw, hr⟩ := hr
      have hcount : fw.1 = flCount sorted spark := by
        have := countFollowers_spec spark sorted 0 0 fw hfw
        simpa [flCount] using this
      rw [if_neg hne] at hr
      rw [hlen, hcount] at hr
      constructor
      · intro c hc
        subst hc
        split at hr
        case isTrue hcond =>
          simp only [pure, Option.some.injEq] at hr
          cases hr
          exact ⟨rfl, rfl, rfl, rfl⟩
        case isFalse hcond =>
          simp only [pure, Option.some.injEq] at hr
          cases hr
      · split at hr
        case isTrue hcond =>
          simp only [pure, Option.some.injEq] at hr
          subst hr
          simp [hcond.1, hcond.2]
        case isFalse hcond =>
          simp only [pure, Option.some.injEq] at hr
          subst hr
          simp only [Option.isSome_none]
          rw [not_and_or] at hcond
          rcases hcond with hc1 | hc2
          · simp [hc1]
          · simp [hc2]

def c6Trades : List RawTrade :=
  [mkCT "w1" "BUY" 10 10 0, mkCT "w2" "BUY" 40000 5 100,
   mkCT "w3" "BUY" 10 10 200, mkCT "w4" "BUY" 10 10 300,
   mkCT "w5" "BUY" 10 10 400, mkCT "w6" "BUY" 10 10 500]

def c6spark : RawTrade := mkCT "w2" "BUY" 40000 5 100

def c6cascade : Cascade :=
  { spark_trade := c6spark, spark_wallet := some "w2", followers := 5,
    follow_ratio := 5/6, follower_volume := 5, direction := some "BUY" }

/-- Concrete evaluation of the cascade detector on the six-trade batch. -/
theorem c6_cascade_eval :
    detectInformationCascade "m1" c6Trades = some (some c6cascade) := by
  have hs : sortByTime c6Trades = some c6Trades := by with_unfolding_all rfl
  have hsp : findSpark (c6Trades.take 5) = some (some c6spark) := by
    with_unfolding_all rfl
  have hcf : countFollowers c6spark c6Trades 0 0 = some (5, 5) := by
    norm_num [countFollowers, c6Trades, c6spark, mkCT, rawNotional, pyFloatOf, bind]
  unfold detectInformationCascade
  rw [if_neg (by decide)]
  simp only [bind, Option.bind_eq_some]
  refine ⟨c6Trades, hs, ?_⟩
  rw [hsp]
  refine ⟨some c6spark, rfl, ?_⟩
  simp only [Option.bind_eq_some]
  refine ⟨(5, 5), hcf, ?_⟩
  rw [if_neg (show ¬ c6Trades = [] by simp [c6Trades])]
  norm_num [c6cascade, c6Trades, c6spark, mkCT]

/-- C6 counterexample: six sorted trades where the first is small and BUY,
the second is the spark (notional 2000), and the rest are BUY: only 4 trades
follow the spark on its side, so the claim (followers = trades after the
spark, cascade needs followers at least 5) predicts no cascade; the code
counts the pre-spark trade too, reaching 5 followers, and reports a
cascade. -/
theorem C6_followers_counterexample :
    (detectInformationCascade "m1" c6Trades).map
        (Option.map (fun c => (c.followers, c.direction))) =
      some (some (5, some "BUY")) ∧
    ((c6Trades.drop 2).filter (fun t => t.side == some "BUY")).length = 4 ∧
    ¬ (5 : ℕ) ≤ 4 := by
  refine ⟨?_, by decide, by norm_num⟩
  rw [c6_cascade_eval]
  rfl

/-- C6 witness: the six-trade batch instantiates the amended theorem -- the
reported cascade's follower count equals the non-spark same-side count 5. -/
theorem C6_cascade_amended_witness :
    sortByTime c6Trades = some c6Trades ∧
    findSpark (c6Trades.take 5) = some (some c6spark) ∧
    detectInformationCascade "m1" c6Trades = some (some c6cascade) ∧
    c6cascade.followers = flCount c6Trades c6spark ∧
    flCount c6Trades c6spark = 5 := by
  have hs : sortByTime c6Trades = some c6Trades := by with_unfolding_all rfl
  have hsp : findSpark (c6Trades.take 5) = some (some c6spark) := by
    with_unfolding_all rfl
  have hd := c6_cascade_eval
  have H := (C6_cascade_amended "m1" c6Trades).2 c6Trades hs (by decide)
  have H2 := (H.2 c6spark hsp (some c6cascade) hd).1 c6cascade rfl
  refine ⟨hs, hsp, hd, H2.1, ?_⟩
  decide


def replaceZChars_plus : List Char := '+' :: '0' :: '0' :: ':' :: '0' :: '0' :: []

theorem replaceZChars_append_Z (cs : List Char) (h : 'Z' ∉ cs) :
    replaceZChars (cs ++ ['Z']) = cs ++ replaceZChars_plus := by
  induction cs with
  | nil => rfl
  | cons c rest ih =>
    simp only [List.cons_append, replaceZChars]
    rw [if_neg (by intro hc; exact h (hc ▸ List.mem_cons_self c rest))]
    exact congrArg (List.cons c) (ih (fun hm => h (List.mem_cons_of_mem c hm)))

theorem pyReplaceZ_trailing_lemma (s : String) (h : 'Z' ∉ s.data) :
    pyReplaceZ (s ++ "Z") = s ++ "+00:00" := by
  obtain ⟨data⟩ := s
  show String.mk (replaceZChars (data ++ ['Z'])) = String.mk (data ++ replaceZChars_plus)
  rw [replaceZChars_append_Z data h]

/-- C5: counterexample. A present but malformed string timestamp ("garbage"), or a
non-numeric size string ("abc"), makes _build_trade raise (modeled as none): the
ISO parse and the float conversion fail, so an exception DOES escape to the caller
for a malformed present field, contradicting the claim that defaults are
substituted for all malformed optional fields. -/
theorem C5_builder_defaults_counterexample :
    buildTrade 0 { timestamp := some (.str "garbage") } {} = none ∧
    buildTrade 0 { size := some (.str "abc"), timestamp := some (.dt 0) } {} = none ∧
    isoParse "garbage" = none ∧
    pyFloatParse "abc" = none :=
  ⟨by with_unfolding_all rfl, by with_unfolding_all rfl,
   by with_unfolding_all rfl, by with_unfolding_all rfl⟩

/-- C5 (amended): only MISSING fields are defaulted. For any raw trade mapping
with size, price and timestamp absent, _build_trade yields shares = 0, price = 0,
notional = 0 and timestamp = now; a trailing Z in a string timestamp is rewritten
to +00:00 before ISO parsing (so a Z-suffixed timestamp parses exactly as the
explicit-UTC-offset one, e.g. 2026-01-15T10:30:00Z gives epoch 1768473000); an
empty wallet mapping builds the all-default wallet profile. A malformed PRESENT
string raises to the caller instead of being defaulted (see the counterexample). -/
theorem C5_builder_defaults_amended :
    (∀ (now : ℚ) (td : RawTrade) (md : RawMarket),
      td.size = none → td.price = none → td.timestamp = none →
      (buildTrade now td md).map
          (fun t => (t.shares, t.price, t.notional_usd, t.timestamp)) =
        some (0, 0, 0, now)) ∧
    (∀ s : String, 'Z' ∉ s.data → pyReplaceZ (s ++ "Z") = s ++ "+00:00") ∧
    (buildTrade 0 { timestamp := some (.str "2026-01-15T10:30:00Z") } {} =
      buildTrade 0 { timestamp := some (.str "2026-01-15T10:30:00+00:00") } {} ∧
     (buildTrade 0 { timestamp := some (.str "2026-01-15T10:30:00Z") } {}).map
        (fun t => t.timestamp) = some 1768473000) ∧
    buildWalletProfile {} =
      { address := "", display_name := none, total_trades := 0, unique_markets := 0,
        total_volume_usd := 0, win_rate := none, first_seen := none,
        last_active := none } := by
  refine ⟨?_, ?_, ⟨?_, ?_⟩, ?_⟩
  · intro now td md hsz hpr hts
    unfold buildTrade
    rw [hsz, hpr, hts]
    dsimp only [pyFloatOf, Option.getD]
    simp only [bind, Option.some_bind]
    norm_num
  · exact pyReplaceZ_trailing_lemma
  · with_unfolding_all rfl
  · with_unfolding_all rfl
  · rfl

/-- C5 witness: the amended theorem applied at concrete inputs. -/
theorem C5_builder_defaults_amended_witness :
    (buildTrade 5 {} {}).map
        (fun t => (t.shares, t.price, t.notional_usd, t.timestamp)) =
      some (0, 0, 0, 5) ∧
    ('Z' ∉ ("2026-01-15T10:30:00" : String).data ∧
      pyReplaceZ ("2026-01-15T10:30:00" ++ "Z") =
        "2026-01-15T10:30:00" ++ "+00:00") :=
  ⟨C5_builder_defaults_amended.1 5 {} {} rfl rfl rfl,
   by decide,
   C5_builder_defaults_amended.2.1 "2026-01-15T10:30:00" (by decide)⟩

end PMBot
